import Mathlib

/-!
Verification of the decode-to-output streaming pipeline of
`cpal_android_test` (`src/lib.rs` and `src/lib_fixed.rs`).

The embedding models the parts of the program the specification talks
about: the `rb::SpscRb<f32>` ring buffer (non-blocking consumer read,
blocking producer write), the cpal output callback built in
`CpalOutput::new` (`lib.rs`) / `main` (`lib_fixed.rs`), the interleaving
write path `CpalOutput::write`, and the decode loop of `open`.

Samples are `f32` in the source; the pipeline only moves them and writes
the constant `0.0`, so they are modelled as rationals, keeping every
definition executable and decidable.
-/

set_option autoImplicit false

namespace CpalAndroidTest

/-- An audio sample (`f32` in the source; no arithmetic is ever performed
on samples, they are only copied, so ℚ is a faithful carrier with `0`
standing for the silence value `0.0`). -/
abbrev Sample := ℚ

/-- `symphonia::core::audio::SignalSpec`: sample rate in Hz and the channel
count (`spec.channels.count()` in the source). -/
structure SignalSpec where
  rate : Nat
  channels : Nat
deriving Repr, DecidableEq

/-! ### The `rb` crate ring buffer (`rb::SpscRb<f32>`) -/

/-- State of an `rb::SpscRb<f32>`: the fixed capacity it was created with
and its current contents in FIFO order (oldest sample first). -/
structure SpscRb where
  cap : Nat
  buf : List Sample
deriving Repr, DecidableEq

/-- `rb::RbConsumer::read(data)`, the non-blocking consumer read: fails
with `RbError` when the buffer holds no samples, otherwise copies
`min(available, data.len())` samples out of the buffer and returns the
count.  Result on success: `(count, samples read, buffer left behind)`;
`none` models `Err(RbError)`. -/
def SpscRb.read (rb : SpscRb) (destLen : Nat) : Option (Nat × List Sample × SpscRb) :=
  if rb.buf.isEmpty then none
  else
    let n := min rb.buf.length destLen
    some (n, rb.buf.take n, { rb with buf := rb.buf.drop n })

/-- The consumer-side read exactly as the output callback performs it:
`reader.read(data).unwrap_or(0)` (`CpalOutput::new` in `lib.rs`, `main` in
`lib_fixed.rs`).  A read error (empty buffer) is treated as zero samples
read; the buffer is left untouched in that case. -/
def callbackRead (rb : SpscRb) (destLen : Nat) : Nat × List Sample × SpscRb :=
  match rb.read destLen with
  | none => (0, [], rb)
  | some r => r

/-- The cpal output callback body (`CpalOutput::new` in `lib.rs`, `main`
in `lib_fixed.rs`):

  `let written = reader.read(data).unwrap_or(0);`
  `data[written..].iter_mut().for_each(|s| *s = 0.0);`

`dest` is the caller-owned destination slice (its prior contents are
irrelevant: the first `written` elements are overwritten by the read and
the rest are set to `0.0`).  Returns the destination contents after the
callback together with the ring-buffer state it leaves behind. -/
def outputCallback (rb : SpscRb) (dest : List Sample) : List Sample × SpscRb :=
  let r := callbackRead rb dest.length
  (r.2.1 ++ List.replicate (dest.length - r.1) 0, r.2.2)

/-! ### The producer-side write loop (`CpalOutput::write`) -/

/-- One `rb::RbProducer::write_blocking(data)` call: returns `None` when
`data` is empty (this is how the Rust `while let` loop exits); otherwise
the call blocks until at least one slot is free and then writes
`min(free, data.len())` samples.  `free` is the free space the call
observes at the moment it unblocks (supplied by the consumer-side
schedule); the returned pair is `(count written, samples written)`. -/
def write_blocking (free : Nat) (samples : List Sample) : Option (Nat × List Sample) :=
  if samples.isEmpty then none
  else
    let k := min free samples.length
    some (k, samples.take k)

/-- The write loop of `CpalOutput::write` (`lib.rs` / `lib_fixed.rs`):

  `while let Some(written) = self.writer.write_blocking(samples)`
  `  { samples = &samples[written..]; }`

`frees` lists, per loop iteration, the free space the `write_blocking`
call observes when it unblocks (the consumer drains the buffer
concurrently, so a blocked call eventually sees free space).  Returns the
chunks submitted to the ring buffer, in submission order; `none` models a
call that never unblocks (zero free space forever) or a schedule that is
too short to account for every iteration. -/
def writeLoop : List Sample → List Nat → Option (List (List Sample))
  | [], _ => some []
  | _ :: _, [] => none
  | s :: rest, f :: fs =>
    match write_blocking f (s :: rest) with
    | none => some []
    | some (k, chunk) =>
      if k = 0 then none
      else
        match writeLoop ((s :: rest).drop k) fs with
        | none => none
        | some chunks => some (chunk :: chunks)

/-! ### The decode-to-output pipeline (`open` and `CpalOutput`) -/

/-- A Rust panic (`expect` / `unwrap` failure): it aborts the call
instead of returning a value to the caller. -/
inductive Crash where
  | panic (msg : String)
deriving Repr, DecidableEq

/-- The cpal host environment `open` runs against: whether
`host.default_output_device()` yields a device, and whether
`build_output_stream`, `stream.play()` and `stream.pause()` succeed. -/
structure HostEnv where
  defaultDevice : Option Unit
  buildStreamOk : Bool
  playOk : Bool
  pauseOk : Bool
deriving Repr, DecidableEq

/-- A good environment: a default output device exists and stream
construction and playback succeed. -/
def HostEnv.good (env : HostEnv) : Prop :=
  env.defaultDevice.isSome = true ∧ env.buildStreamOk = true ∧ env.playOk = true

instance (env : HostEnv) : Decidable env.good := by
  unfold HostEnv.good; infer_instance

/-- `cpal::StreamConfig` as built by `CpalOutput::get_config`. -/
structure StreamConfig where
  channels : Nat
  rate : Nat
deriving Repr, DecidableEq

/-- `CpalOutput::get_config` (`lib.rs`): takes the default output device —
panicking with `expect` when none exists — and builds the `StreamConfig`
from the signal spec. -/
def CpalOutput.get_config (env : HostEnv) (spec : SignalSpec) :
    Except Crash StreamConfig :=
  match env.defaultDevice with
  | none => .error (.panic "ERR: Failed to get default output device.")
  | some _ => .ok { channels := spec.channels, rate := spec.rate }

/-- Ring-buffer sizing from `CpalOutput::new` (`lib.rs`) and
`CpalOutput::update_buffers` (`lib_fixed.rs`):

  `let ring_len = ((200 * spec.rate as usize) / 1000) * channels;`

Rust `usize` division truncates, exactly like `Nat` division. -/
def ring_len (rate channels : Nat) : Nat :=
  ((200 * rate) / 1000) * channels

/-- Modelled from the spec (for comparison with `ring_len`): capacity
"chosen as `ceil(latency_ms * sample_rate / 1000) * channel_count`,
default latency_ms = 200". -/
def ring_len_spec (rate channels : Nat) : Nat :=
  (⌈(200 * (rate : ℚ)) / 1000⌉).toNat * channels

/-- Model of a `CpalOutput` (`lib.rs`): the signal spec it was built for,
the capacity of the `SpscRb` it allocated, the reusable `SampleBuffer`
scratch contents, and the trace of sample batches submitted in full to the
ring buffer's write end, in submission order (`writeLoop` proves each
batch is submitted exhaustively, so the trace is what a consumer that
keeps reading receives). -/
structure CpalOutputM where
  spec : SignalSpec
  ringCap : Nat
  sampleBuffer : List Sample
  delivered : List (List Sample)
deriving Repr, DecidableEq

/-- `CpalOutput::new` (`lib.rs`): gets the device configuration (panics
when there is no output device), allocates the ring buffer of
`ring_len` samples and an empty `SampleBuffer` scratch of capacity
`duration * channels`, builds the output stream (panics on failure) and
starts playback (panics on failure). -/
def CpalOutput.new (env : HostEnv) (spec : SignalSpec) (_duration : Nat) :
    Except Crash CpalOutputM :=
  match CpalOutput.get_config env spec with
  | .error c => .error c
  | .ok _config =>
    if env.buildStreamOk then
      if env.playOk then
        .ok { spec := spec
              ringCap := ring_len spec.rate spec.channels
              sampleBuffer := []
              delivered := [] }
      else .error (.panic "ERR: Failed to play the stream.")
    else .error (.panic "ERR: An error occurred when building the stream.")

/-- A successfully decoded `AudioBufferRef`: its signal spec
(`decoded.spec()`), capacity (`decoded.capacity()`), frame count
(`decoded.frames()`), and the interleaved sample sequence
`copy_interleaved_ref` produces from it (`frames * channels` samples in
channel-minor order). -/
structure AudioFrame where
  spec : SignalSpec
  capacity : Nat
  frames : Nat
  interleaved : List Sample
deriving Repr, DecidableEq

/-- `CpalOutput::write` (`lib.rs` / `lib_fixed.rs`): returns immediately
when `decoded.frames() == 0`; otherwise `copy_interleaved_ref` fills the
scratch `SampleBuffer` with the frame's interleaved samples and the write
loop submits them in full to the ring buffer (recorded on the `delivered`
trace; `writeLoop` below is the loop itself). -/
def CpalOutput.write (o : CpalOutputM) (decoded : AudioFrame) : CpalOutputM :=
  if decoded.frames = 0 then o
  else { o with
          sampleBuffer := decoded.interleaved
          delivered := o.delivered ++ [decoded.interleaved] }

/-- A demuxed packet: `open` inspects only `packet.track_id()` and hands
the packet to the decoder; `payload` stands for the opaque compressed
bytes the decoder consumes. -/
structure Packet where
  trackId : Nat
  payload : Nat
deriving Repr, DecidableEq

/-- The decoder collaborator: `decoder.decode(&packet)` either fails with
a `DecodeError` (its display message) or yields a decoded frame. -/
abbrev Decoder := Packet → Except String AudioFrame

/-- Mutable state of `open`'s decode loop: the `Option<CpalOutput>` and
the `WARN:` lines printed so far. -/
structure OpenState where
  cpalOutput : Option CpalOutputM
  warnings : List String
deriving Repr, DecidableEq

/-- The state `open` starts its loop with: `let mut cpal_output = None`. -/
def initState : OpenState := { cpalOutput := none, warnings := [] }

/-- The decode loop of `open` (`lib.rs`): for each packet from
`reader.next_packet()` (the list is exhausted when `next_packet` errors,
which breaks the loop) — skip it when its track id differs from the
default track's; on decode failure print a warning and continue; on
success, build the `CpalOutput` if none exists yet (from the decoded
frame's spec and capacity — this can panic, which aborts `open`), then
write the decoded frame. -/
def openLoop (trackId : Nat) (decode : Decoder) (env : HostEnv) :
    List Packet → OpenState → Except Crash OpenState
  | [], st => .ok st
  | p :: ps, st =>
    if p.trackId ≠ trackId then openLoop trackId decode env ps st
    else
      match decode p with
      | .error err =>
        openLoop trackId decode env ps
          { st with warnings := st.warnings ++ [s!"WARN: Failed to decode sound. {err}"] }
      | .ok decoded =>
        match st.cpalOutput with
        | none =>
          match CpalOutput.new env decoded.spec decoded.capacity with
          | .error c => .error c
          | .ok o =>
            openLoop trackId decode env ps
              { st with cpalOutput := some (CpalOutput.write o decoded) }
        | some o =>
          openLoop trackId decode env ps
            { st with cpalOutput := some (CpalOutput.write o decoded) }

/-- `open` (`lib.rs`; Lean reserves the name `open`): runs the decode loop
from the empty state, then executes
`cpal_output.unwrap().stream.pause().unwrap()` — which panics when no
packet was ever decoded successfully (`cpal_output` is still `None`) or
when pausing the stream fails. -/
def openSource (trackId : Nat) (decode : Decoder) (env : HostEnv)
    (packets : List Packet) : Except Crash OpenState :=
  match openLoop trackId decode env packets initState with
  | .error c => .error c
  | .ok st =>
    match st.cpalOutput with
    | none => .error (.panic "called Option::unwrap() on a None value")
    | some _ =>
      if env.pauseOk then .ok st
      else .error (.panic "called Result::unwrap() on an Err value")

/-- The successfully decoded frames among the packets of the default
track, in packet order: these are exactly the frames `open`'s loop passes
to `CpalOutput::write`. -/
def successes (trackId : Nat) (decode : Decoder) (ps : List Packet) : List AudioFrame :=
  ps.filterMap fun p =>
    if p.trackId = trackId then (decode p).toOption else none

/-- The `WARN:` lines the decode loop prints for the packets of the
default track whose decode fails, in packet order. -/
def decodeWarnings (trackId : Nat) (decode : Decoder) (ps : List Packet) : List String :=
  ps.filterMap fun p =>
    if p.trackId = trackId then
      match decode p with
      | .error err => some s!"WARN: Failed to decode sound. {err}"
      | .ok _ => none
    else none

/-- Writing a list of decoded frames in order (the steady-state phase of
the decode loop, once the `CpalOutput` exists). -/
def writeAll (o : CpalOutputM) (fs : List AudioFrame) : CpalOutputM :=
  fs.foldl CpalOutput.write o

/-- The batches a list of frames contributes to the `delivered` trace:
zero-frame buffers are skipped by `CpalOutput::write`, every other frame
contributes its interleaved samples. -/
def deliveredOf (fs : List AudioFrame) : List (List Sample) :=
  (fs.filter fun f => f.frames ≠ 0).map AudioFrame.interleaved

/-- The trace of batches submitted to the ring buffer in a given decode
loop state (empty while no `CpalOutput` exists yet). -/
def deliveredTrace (st : OpenState) : List (List Sample) :=
  match st.cpalOutput with
  | none => []
  | some o => o.delivered

/-- A decode result that is either an error or a frame with a nonzero
frame count. -/
def okNonempty : Except String AudioFrame → Prop
  | .error _ => True
  | .ok f => f.frames ≠ 0

instance (r : Except String AudioFrame) : Decidable (okNonempty r) := by
  cases r <;> · unfold okNonempty; infer_instance

/-- A host environment in which everything succeeds. -/
def goodEnv : HostEnv :=
  { defaultDevice := some (), buildStreamOk := true, playOk := true, pauseOk := true }

/-- A host environment with no default output device. -/
def noDeviceEnv : HostEnv :=
  { defaultDevice := none, buildStreamOk := true, playOk := true, pauseOk := true }

/-- A decoder that decodes every packet to one stereo frame of two
interleaved samples. -/
def okDecoder : Decoder := fun _ =>
  .ok { spec := ⟨44100, 2⟩, capacity := 1152, frames := 1, interleaved := [1, 2] }

/-- A decoder whose decode succeeds but yields a frame with zero frames
of samples. -/
def zeroFrameDecoder : Decoder := fun _ =>
  .ok { spec := ⟨44100, 2⟩, capacity := 1152, frames := 0, interleaved := [] }

/-- A concrete output state for witnesses. -/
def sampleOutput : CpalOutputM :=
  { spec := ⟨44100, 2⟩, ringCap := 17640, sampleBuffer := [1, 2], delivered := [[1, 2]] }

/-- A decoded frame with zero frames (`decoded.frames() == 0`). -/
def emptyFrame : AudioFrame :=
  { spec := ⟨44100, 2⟩, capacity := 1152, frames := 0, interleaved := [] }

/-- A decoder failing exactly on the unit with payload 3 and decoding
every other unit to one stereo frame. -/
def failOn3 : Decoder := fun p =>
  if p.payload = 3 then .error "malformed unit"
  else .ok { spec := ⟨44100, 2⟩, capacity := 1152, frames := 1,
             interleaved := [(p.payload : Sample), (p.payload : Sample)] }

/-! ### Helper lemmas (shared) -/

/-- `CpalOutput::write` never changes the signal spec. -/
theorem write_spec (o : CpalOutputM) (f : AudioFrame) :
    (CpalOutput.write o f).spec = o.spec := by
  unfold CpalOutput.write
  split <;> rfl

/-- `CpalOutput::write` never changes the ring-buffer capacity. -/
theorem write_ringCap (o : CpalOutputM) (f : AudioFrame) :
    (CpalOutput.write o f).ringCap = o.ringCap := by
  unfold CpalOutput.write
  split <;> rfl

/-- What one `CpalOutput::write` adds to the delivered trace. -/
theorem write_delivered (o : CpalOutputM) (f : AudioFrame) :
    (CpalOutput.write o f).delivered =
      o.delivered ++ if f.frames = 0 then [] else [f.interleaved] := by
  unfold CpalOutput.write
  split <;> simp_all

/-- `writeAll` preserves the signal spec. -/
theorem writeAll_spec (o : CpalOutputM) (fs : List AudioFrame) :
    (writeAll o fs).spec = o.spec := by
  induction fs generalizing o with
  | nil => rfl
  | cons f fs ih =>
    rw [writeAll, List.foldl_cons, ← writeAll]
    rw [ih, write_spec]

/-- `writeAll` preserves the ring-buffer capacity. -/
theorem writeAll_ringCap (o : CpalOutputM) (fs : List AudioFrame) :
    (writeAll o fs).ringCap = o.ringCap := by
  induction fs generalizing o with
  | nil => rfl
  | cons f fs ih =>
    rw [writeAll, List.foldl_cons, ← writeAll]
    rw [ih, write_ringCap]

/-- `writeAll` appends exactly the batches of the written frames to the
delivered trace. -/
theorem writeAll_delivered (o : CpalOutputM) (fs : List AudioFrame) :
    (writeAll o fs).delivered = o.delivered ++ deliveredOf fs := by
  induction fs generalizing o with
  | nil => simp [writeAll, deliveredOf]
  | cons f fs ih =>
    rw [writeAll, List.foldl_cons, ← writeAll]
    rw [ih, write_delivered]
    by_cases hf : f.frames = 0 <;>
      simp [deliveredOf, hf, List.filter_cons, List.append_assoc]

/-- With all frames nonempty, `deliveredOf` is just the interleaved
samples of each frame. -/
theorem deliveredOf_all_nonzero (fs : List AudioFrame)
    (h : ∀ f ∈ fs, f.frames ≠ 0) :
    deliveredOf fs = fs.map AudioFrame.interleaved := by
  unfold deliveredOf
  rw [List.filter_eq_self.mpr]
  intro f hf
  simpa using h f hf

/-- In a good environment `CpalOutput::new` succeeds and returns a fresh
output sized by `ring_len`, with empty scratch and delivered trace. -/
theorem CpalOutput_new_good (env : HostEnv) (henv : env.good)
    (spec : SignalSpec) (d : Nat) :
    CpalOutput.new env spec d =
      .ok ⟨spec, ring_len spec.rate spec.channels, [], []⟩ := by
  obtain ⟨h1, h2, h3⟩ := henv
  unfold CpalOutput.new CpalOutput.get_config
  cases hd : env.defaultDevice with
  | none => rw [hd] at h1; simp at h1
  | some _ => simp [h2, h3]

/-- Once the `CpalOutput` exists the decode loop can no longer crash: it
writes every successfully decoded frame of the default track and logs a
warning for every failed one. -/
theorem openLoop_some (trackId : Nat) (decode : Decoder) (env : HostEnv)
    (ps : List Packet) (o : CpalOutputM) (w : List String) :
    openLoop trackId decode env ps ⟨some o, w⟩ =
      .ok ⟨some (writeAll o (successes trackId decode ps)),
           w ++ decodeWarnings trackId decode ps⟩ := by
  induction ps generalizing o w with
  | nil => simp [openLoop, successes, decodeWarnings, writeAll]
  | cons p ps ih =>
    by_cases hp : p.trackId = trackId
    · cases hd : decode p with
      | error e =>
        simp [openLoop, hp, hd, ih, successes, decodeWarnings, Except.toOption]
      | ok f =>
        simp [openLoop, hp, hd, ih, successes, decodeWarnings, Except.toOption,
              writeAll]
    · simp [openLoop, hp, ih, successes, decodeWarnings]

/-- Processing a concatenation of packet lists is processing the first,
then the second from the state the first left. -/
theorem openLoop_append (trackId : Nat) (decode : Decoder) (env : HostEnv)
    (ps qs : List Packet) (st : OpenState) :
    openLoop trackId decode env (ps ++ qs) st =
      match openLoop trackId decode env ps st with
      | .error c => .error c
      | .ok st' => openLoop trackId decode env qs st' := by
  induction ps generalizing st with
  | nil => simp [openLoop]
  | cons p ps ih =>
    by_cases hp : p.trackId = trackId
    · cases hd : decode p with
      | error e => simp [openLoop, hp, hd, ih]
      | ok f =>
        cases hco : st.cpalOutput with
        | none =>
          cases hnew : CpalOutput.new env f.spec f.capacity with
          | error c => simp [openLoop, hp, hd, hco, hnew]
          | ok o => simp [openLoop, hp, hd, hco, hnew, ih]
        | some o => simp [openLoop, hp, hd, hco, ih]
    · simp [openLoop, hp, ih]

/-- A stretch of packets none of which decodes successfully (each is
foreign or fails to decode) leaves the loop without a `CpalOutput`,
accumulating only warnings. -/
theorem openLoop_none_no_success (trackId : Nat) (decode : Decoder)
    (env : HostEnv) (ps : List Packet) (w : List String)
    (h : ∀ p ∈ ps, p.trackId = trackId → ∃ e, decode p = .error e) :
    openLoop trackId decode env ps ⟨none, w⟩ =
      .ok ⟨none, w ++ decodeWarnings trackId decode ps⟩ := by
  induction ps generalizing w with
  | nil => simp [openLoop, decodeWarnings]
  | cons p ps ih =>
    have h' := fun q hq => h q (List.mem_cons_of_mem _ hq)
    by_cases hp : p.trackId = trackId
    · obtain ⟨e, he⟩ := h p (List.mem_cons_self _ _) hp
      have ih' := ih (w ++ [s!"WARN: Failed to decode sound. {e}"]) h'
      simp [openLoop, hp, he, ih', decodeWarnings]
    · have ih' := ih w h'
      simp [openLoop, hp, ih', decodeWarnings]

/-- Closed form of the callback's read: it always obtains exactly
`min available destLen` samples — the oldest ones — and leaves the rest,
with an empty buffer (the `RbError` path of `unwrap_or(0)`) giving zero. -/
theorem callbackRead_eq (rb : SpscRb) (destLen : Nat) :
    callbackRead rb destLen =
      (min rb.buf.length destLen, rb.buf.take (min rb.buf.length destLen),
       ⟨rb.cap, rb.buf.drop (min rb.buf.length destLen)⟩) := by
  obtain ⟨cap, buf⟩ := rb
  unfold callbackRead SpscRb.read
  by_cases hb : buf.isEmpty
  · have hnil : buf = [] := by simpa [List.isEmpty_iff] using hb
    simp [hb, hnil]
  · simp [hb]

/-! ### C1: the write loop submits the entire batch -/

/-- C1: For every decoded batch of interleaved samples, the writer's write
loop submits the entire batch to the ring buffer: after each
`write_blocking` call returning `count_written` it advances the input
slice by `count_written` and repeats until nothing remains, so — provided
every blocking call eventually unblocks with at least one free slot
(`hpos`) — the loop terminates and the submitted chunks concatenate to
exactly the original batch: every sample is delivered exactly once, in
submission order, with no drop or reorder. -/
theorem write_submits_entire_batch
    (samples : List Sample) (frees : List Nat)
    (hpos : ∀ f ∈ frees, 0 < f)
    (hlen : samples.length ≤ frees.length) :
    ∃ chunks, writeLoop samples frees = some chunks ∧ chunks.flatten = samples := by
  induction frees generalizing samples with
  | nil =>
    have hs : samples = [] := List.eq_nil_of_length_eq_zero (Nat.le_zero.mp hlen)
    subst hs
    exact ⟨[], rfl, rfl⟩
  | cons f fs ih =>
    cases samples with
    | nil => exact ⟨[], rfl, rfl⟩
    | cons s rest =>
      have hf : 0 < f := hpos f (List.mem_cons_self _ _)
      have hkpos : 0 < min f (s :: rest).length :=
        lt_min hf (by simp)
      have hwb : write_blocking f (s :: rest) =
          some (min f (s :: rest).length, (s :: rest).take (min f (s :: rest).length)) := by
        simp [write_blocking]
      have hlen' : ((s :: rest).drop (min f (s :: rest).length)).length ≤ fs.length := by
        rw [List.length_drop]
        have h1 : (s :: rest).length ≤ fs.length + 1 := by
          simpa using hlen
        omega
      obtain ⟨chunks, hc, hj⟩ :=
        ih ((s :: rest).drop (min f (s :: rest).length))
          (fun g hg => hpos g (List.mem_cons_of_mem _ hg)) hlen'
      refine ⟨(s :: rest).take (min f (s :: rest).length) :: chunks, ?_, ?_⟩
      · simp only [writeLoop, hwb, Nat.pos_iff_ne_zero.mp hkpos, if_neg, hc]
        simp [Nat.pos_iff_ne_zero.mp hkpos]
      · simp [List.flatten, hj]

/-- Witness for C1 at a concrete batch and consumer schedule. -/
theorem write_submits_entire_batch_witness :
    ∃ chunks, writeLoop [1, 2, 3] [2, 2, 2] = some chunks ∧
      chunks.flatten = [1, 2, 3] :=
  write_submits_entire_batch [1, 2, 3] [2, 2, 2] (by decide) (by decide)

/-! ### C2: silence fill on under-run -/

/-- C2: For every invocation of the real-time output callback with a
destination of size `N = dest.length`, if the non-blocking read returns
`M ≤ N` samples, then the first `M` elements of the destination equal the
`M` samples read from the ring buffer and every element at index `M..N`
equals `0` (silence); the callback is a total function, so no error is
raised on under-run. -/
theorem callback_silence_fill
    (rb : SpscRb) (dest : List Sample) (M : Nat) (samples : List Sample) (rb' : SpscRb)
    (h : callbackRead rb dest.length = (M, samples, rb')) :
    M ≤ dest.length ∧
    (outputCallback rb dest).1 = samples ++ List.replicate (dest.length - M) 0 ∧
    (outputCallback rb dest).1.length = dest.length ∧
    (outputCallback rb dest).1.take M = samples ∧
    (outputCallback rb dest).1.drop M = List.replicate (dest.length - M) 0 := by
  rw [callbackRead_eq] at h
  have h1 : min rb.buf.length dest.length = M := congrArg Prod.fst h
  have h2 : rb.buf.take (min rb.buf.length dest.length) = samples :=
    congrArg (fun x => x.2.1) h
  subst h1
  subst h2
  have hout : (outputCallback rb dest).1 =
      rb.buf.take (min rb.buf.length dest.length) ++
        List.replicate (dest.length - min rb.buf.length dest.length) 0 := by
    simp [outputCallback, callbackRead_eq]
  have hlen : (rb.buf.take (min rb.buf.length dest.length)).length
      = min rb.buf.length dest.length := by
    rw [List.length_take]
    exact min_eq_left (min_le_left _ _)
  have hle : min rb.buf.length dest.length ≤ dest.length := min_le_right _ _
  refine ⟨hle, hout, ?_, ?_, ?_⟩
  · rw [hout, List.length_append, hlen, List.length_replicate]
    omega
  · rw [hout, List.take_left' hlen]
  · rw [hout, List.drop_left' hlen]

/-- Witness for C2: two buffered samples, destination of size three. -/
theorem callback_silence_fill_witness :
    (2 : Nat) ≤ ([1, 2, 3] : List Sample).length ∧
    (outputCallback ⟨4, [5, 6]⟩ [1, 2, 3]).1 = [5, 6] ++ List.replicate 1 0 ∧
    (outputCallback ⟨4, [5, 6]⟩ [1, 2, 3]).1.length = 3 ∧
    (outputCallback ⟨4, [5, 6]⟩ [1, 2, 3]).1.take 2 = [5, 6] ∧
    (outputCallback ⟨4, [5, 6]⟩ [1, 2, 3]).1.drop 2 = List.replicate 1 0 :=
  callback_silence_fill ⟨4, [5, 6]⟩ [1, 2, 3] 2 [5, 6] ⟨4, []⟩ (by decide)

/-- Every successfully decoded frame of the default track has a nonzero
frame count when the decoder only produces nonempty frames. -/
theorem successes_frames_nonzero (trackId : Nat) (decode : Decoder)
    (ps : List Packet) (hframes : ∀ p ∈ ps, okNonempty (decode p)) :
    ∀ f ∈ successes trackId decode ps, f.frames ≠ 0 := by
  intro f hf
  rw [successes, List.mem_filterMap] at hf
  obtain ⟨p, hp, hdp⟩ := hf
  by_cases h : p.trackId = trackId
  · rw [if_pos h] at hdp
    have hne := hframes p hp
    cases hd : decode p with
    | error e => rw [hd] at hdp; simp [Except.toOption] at hdp
    | ok g =>
      rw [hd] at hdp
      simp only [Except.toOption, Option.some.injEq] at hdp
      subst hdp
      rw [hd] at hne
      exact hne
  · rw [if_neg h] at hdp
    simp at hdp

/-- The decode loop run from the no-output state, with only default-track
packets and nonempty successful frames: it never crashes in a good
environment, logs the failures and delivers the successes. -/
theorem openLoop_from_none (trackId : Nat) (decode : Decoder) (env : HostEnv)
    (henv : env.good) (ps : List Packet) (w : List String)
    (hmatch : ∀ p ∈ ps, p.trackId = trackId)
    (hframes : ∀ p ∈ ps, okNonempty (decode p)) :
    ∃ st, openLoop trackId decode env ps ⟨none, w⟩ = .ok st ∧
      deliveredTrace st = (successes trackId decode ps).map AudioFrame.interleaved ∧
      st.warnings = w ++ decodeWarnings trackId decode ps := by
  induction ps generalizing w with
  | nil =>
    exact ⟨⟨none, w⟩, by simp [openLoop], by simp [deliveredTrace, successes],
           by simp [decodeWarnings]⟩
  | cons p ps ih =>
    have hp : p.trackId = trackId := hmatch p (List.mem_cons_self _ _)
    have hmatch' := fun q hq => hmatch q (List.mem_cons_of_mem _ hq)
    have hframes' := fun q hq => hframes q (List.mem_cons_of_mem _ hq)
    cases hd : decode p with
    | error e =>
      obtain ⟨st, h1, h2, h3⟩ :=
        ih (w ++ [s!"WARN: Failed to decode sound. {e}"]) hmatch' hframes'
      refine ⟨st, ?_, ?_, ?_⟩
      · simp [openLoop, hp, hd, h1]
      · rw [h2]
        simp [successes, hp, hd, Except.toOption]
      · rw [h3]
        simp [decodeWarnings, hp, hd]
    | ok f =>
      have hnew := CpalOutput_new_good env henv f.spec f.capacity
      have hfr : f.frames ≠ 0 := by
        have hne := hframes p (List.mem_cons_self _ _)
        rw [hd] at hne
        exact hne
      have hsome := openLoop_some trackId decode env ps
        (CpalOutput.write ⟨f.spec, ring_len f.spec.rate f.spec.channels, [], []⟩ f) w
      refine ⟨⟨some (writeAll
          (CpalOutput.write ⟨f.spec, ring_len f.spec.rate f.spec.channels, [], []⟩ f)
          (successes trackId decode ps)), w ++ decodeWarnings trackId decode ps⟩,
        ?_, ?_, ?_⟩
      · simp only [openLoop, hd, hnew, if_neg (not_not_intro hp)]
        exact hsome
      · simp only [deliveredTrace]
        rw [writeAll_delivered, write_delivered, if_neg hfr,
            deliveredOf_all_nonzero _ (successes_frames_nonzero _ _ _ hframes')]
        simp [successes, hp, hd, Except.toOption]
      · simp [decodeWarnings, hp, hd]

/-! ### C3: ring-buffer capacity formula -/

/-- C3 counterexample: the claim says the allocated capacity equals
`ceil(200 * rate / 1000) * channels` for every positive rate; the code's
`((200 * rate) / 1000) * channels` truncates, and at `rate = 44101`,
`channels = 1` the two differ (`8820` vs `8821`). -/
theorem ring_len_ne_ceil_formula :
    ring_len 44101 1 = 8820 ∧ ring_len_spec 44101 1 = 8821 ∧
    ring_len 44101 1 ≠ ring_len_spec 44101 1 := by
  have hceil : (⌈(200 * ((44101 : Nat) : ℚ)) / 1000⌉ : ℤ) = 8821 := by
    rw [Int.ceil_eq_iff]
    norm_num
  have h2 : ring_len_spec 44101 1 = 8821 := by
    rw [ring_len_spec, hceil]
    rfl
  refine ⟨by decide, h2, ?_⟩
  rw [h2]
  decide

/-- C3 amended: the capacity allocated for a stream equals
`floor(200 * rate / 1000) * channels` (Rust integer division truncates);
this agrees with the ceiling form whenever `1000 ∣ 200 * rate`, and in
particular capacity is `17640` for rate 44100 with 2 channels and `9600`
for rate 48000 with 1 channel. -/
theorem ring_len_floor_formula (rate channels : Nat)
    (hr : 0 < rate) (hc : 0 < channels) :
    ring_len rate channels = ⌊(200 * (rate : ℚ)) / 1000⌋₊ * channels ∧
    ring_len 44100 2 = 17640 ∧
    ring_len 48000 1 = 9600 := by
  refine ⟨?_, by decide, by decide⟩
  have hcast : (200 * (rate : ℚ)) = ((200 * rate : Nat) : ℚ) := by push_cast; ring
  have h1000 : ((1000 : Nat) : ℚ) = (1000 : ℚ) := by norm_num
  rw [ring_len, hcast, ← h1000, Nat.floor_div_nat, Nat.floor_natCast]

/-- Witness for the amended C3 at rate 44100, 2 channels. -/
theorem ring_len_floor_formula_witness :
    ring_len 44100 2 = ⌊(200 * ((44100 : Nat) : ℚ)) / 1000⌋₊ * 2 ∧
    ring_len 44100 2 = 17640 ∧
    ring_len 48000 1 = 9600 :=
  ring_len_floor_formula 44100 2 (by decide) (by decide)

/-! ### C8: zero-frame write is a no-op -/

/-- C8: Writing a decoded frame with zero samples is a no-op:
`CpalOutput::write` returns immediately, leaving the interleaving scratch
buffer, the ring buffer (the delivered trace) and every other field of the
output state unchanged, and — being a total function — raises no error. -/
theorem zero_frame_write_noop (o : CpalOutputM) (f : AudioFrame)
    (h : f.frames = 0) :
    CpalOutput.write o f = o := by
  simp [CpalOutput.write, h]

/-- Witness for C8 at a concrete state and zero-sample frame. -/
theorem zero_frame_write_noop_witness :
    CpalOutput.write sampleOutput emptyFrame = sampleOutput :=
  zero_frame_write_noop sampleOutput emptyFrame rfl

/-! ### C9: the consumer-side read never blocks -/

/-- C9: The consumer-side read performed by the real-time output callback
is a total function of the buffer state — defined for every state (empty,
partially full, or full), which is how "never blocks" renders in this
embedding — and returns exactly `min available destLen` samples: whatever
is available, up to the requested size, never more than either; the
samples obtained are the oldest buffered ones and together with the
samples left behind they reconstitute the buffer (nothing is lost or
duplicated), and the capacity is untouched. -/
theorem read_nonblocking_returns_available
    (rb : SpscRb) (destLen : Nat) (n : Nat) (samples : List Sample) (rb' : SpscRb)
    (h : callbackRead rb destLen = (n, samples, rb')) :
    n = min rb.buf.length destLen ∧
    n ≤ destLen ∧
    n ≤ rb.buf.length ∧
    samples = rb.buf.take n ∧
    samples ++ rb'.buf = rb.buf ∧
    rb'.cap = rb.cap := by
  rw [callbackRead_eq] at h
  have h1 : min rb.buf.length destLen = n := congrArg Prod.fst h
  have h2 : rb.buf.take (min rb.buf.length destLen) = samples :=
    congrArg (fun x => x.2.1) h
  have h3 : (⟨rb.cap, rb.buf.drop (min rb.buf.length destLen)⟩ : SpscRb) = rb' :=
    congrArg (fun x => x.2.2) h
  subst h1
  refine ⟨rfl, min_le_right _ _, min_le_left _ _, h2.symm, ?_, ?_⟩
  · rw [← h2, ← h3]
    exact List.take_append_drop _ _
  · rw [← h3]

/-- Witness for C9: a partially full buffer and a larger request. -/
theorem read_nonblocking_returns_available_witness :
    (2 : Nat) = min ([5, 6] : List Sample).length 3 ∧
    (2 : Nat) ≤ 3 ∧
    (2 : Nat) ≤ ([5, 6] : List Sample).length ∧
    ([5, 6] : List Sample) = ([5, 6] : List Sample).take 2 ∧
    ([5, 6] : List Sample) ++ (⟨4, []⟩ : SpscRb).buf = [5, 6] ∧
    (⟨4, []⟩ : SpscRb).cap = (⟨4, [5, 6]⟩ : SpscRb).cap :=
  read_nonblocking_returns_available ⟨4, [5, 6]⟩ 3 2 [5, 6] ⟨4, []⟩ (by decide)

/-! ### C10: the callback is total at its interface -/

/-- C10: The output callback is total at its interface: the count the
ring-buffer read returns never exceeds the destination's length (so the
slice `data[written..]` is always in bounds), a read error is treated as
zero samples read — an empty buffer then yields a destination entirely
filled with silence — and the callback, a total function, fills every
element of the destination (the output has exactly the destination's
length). -/
theorem callback_total_in_bounds (rb : SpscRb) (dest : List Sample) :
    (callbackRead rb dest.length).1 ≤ dest.length ∧
    (outputCallback rb dest).1.length = dest.length ∧
    (rb.read dest.length = none →
      (outputCallback rb dest).1 = List.replicate dest.length 0) := by
  have hle : (callbackRead rb dest.length).1 ≤ dest.length := by
    rw [callbackRead_eq]
    exact min_le_right _ _
  have hlen : (callbackRead rb dest.length).2.1.length
      = (callbackRead rb dest.length).1 := by
    rw [callbackRead_eq]
    simp only [List.length_take]
    exact min_eq_left (min_le_left _ _)
  refine ⟨hle, ?_, ?_⟩
  · rw [outputCallback]
    simp only [List.length_append, List.length_replicate, hlen]
    omega
  · intro hnone
    rw [outputCallback]
    simp [callbackRead, hnone]

/-- Witness for C10 at an empty buffer (the read-error path). -/
theorem callback_total_in_bounds_witness :
    (callbackRead ⟨4, []⟩ ([1, 2, 3] : List Sample).length).1 ≤
      ([1, 2, 3] : List Sample).length ∧
    (outputCallback ⟨4, []⟩ ([1, 2, 3] : List Sample)).1.length =
      ([1, 2, 3] : List Sample).length ∧
    (SpscRb.read ⟨4, []⟩ ([1, 2, 3] : List Sample).length = none →
      (outputCallback ⟨4, []⟩ ([1, 2, 3] : List Sample)).1 =
        List.replicate ([1, 2, 3] : List Sample).length 0) :=
  callback_total_in_bounds ⟨4, []⟩ [1, 2, 3]

/-! ### C4: transient decode errors are non-fatal -/

/-- C4: A transient decode error is non-fatal: for every default-track
packet whose decode fails, a warning is logged and the loop continues with
the next packet, so — in a good environment, with every successful frame
nonempty — a decoder failing on some of the `n` units still runs to
completion (returns `.ok`, never terminating the stream early) and
delivers exactly the successfully decoded frames, in order, while logging
one warning per failed unit. -/
theorem decode_errors_nonfatal
    (trackId : Nat) (decode : Decoder) (env : HostEnv) (ps : List Packet)
    (henv : env.good)
    (hmatch : ∀ p ∈ ps, p.trackId = trackId)
    (hframes : ∀ p ∈ ps, okNonempty (decode p)) :
    ∃ st, openLoop trackId decode env ps initState = .ok st ∧
      deliveredTrace st = (successes trackId decode ps).map AudioFrame.interleaved ∧
      st.warnings = decodeWarnings trackId decode ps := by
  obtain ⟨st, h1, h2, h3⟩ :=
    openLoop_from_none trackId decode env henv ps [] hmatch hframes
  exact ⟨st, h1, h2, by simpa using h3⟩

/-- Witness for C4: five units of one track, the third malformed — the
loop completes and delivers the four decoded frames in order. -/
theorem decode_errors_nonfatal_witness :
    ∃ st, openLoop 1 failOn3 goodEnv
        [⟨1, 1⟩, ⟨1, 2⟩, ⟨1, 3⟩, ⟨1, 4⟩, ⟨1, 5⟩] initState = .ok st ∧
      deliveredTrace st =
        (successes 1 failOn3 [⟨1, 1⟩, ⟨1, 2⟩, ⟨1, 3⟩, ⟨1, 4⟩, ⟨1, 5⟩]).map
          AudioFrame.interleaved ∧
      st.warnings = decodeWarnings 1 failOn3 [⟨1, 1⟩, ⟨1, 2⟩, ⟨1, 3⟩, ⟨1, 4⟩, ⟨1, 5⟩] :=
  decode_errors_nonfatal 1 failOn3 goodEnv
    [⟨1, 1⟩, ⟨1, 2⟩, ⟨1, 3⟩, ⟨1, 4⟩, ⟨1, 5⟩] (by decide) (by decide) (by decide)

/-! ### C5: foreign-track packets are silently discarded -/

/-- C5: For every packet whose track id differs from the default track's
id, the packet is silently discarded before it reaches the decoder:
running the decode loop on any packet list is indistinguishable — same
result, same output state, same warnings, same crashes — from running it
on the list with all foreign packets removed, for every decoder,
environment and starting state. -/
theorem foreign_track_discarded
    (trackId : Nat) (decode : Decoder) (env : HostEnv)
    (ps : List Packet) (st : OpenState) :
    openLoop trackId decode env ps st =
      openLoop trackId decode env (ps.filter fun p => p.trackId == trackId) st := by
  induction ps generalizing st with
  | nil => rfl
  | cons p ps ih =>
    by_cases hp : p.trackId = trackId
    · rw [List.filter_cons_of_pos (by simpa using hp)]
      cases hd : decode p with
      | error e => simp [openLoop, hp, hd, ih]
      | ok f =>
        cases hco : st.cpalOutput with
        | none =>
          cases hnew : CpalOutput.new env f.spec f.capacity with
          | error c => simp [openLoop, hp, hd, hco, hnew]
          | ok o => simp [openLoop, hp, hd, hco, hnew, ih]
        | some o => simp [openLoop, hp, hd, hco, ih]
    · rw [List.filter_cons_of_neg (by simpa using hp)]
      simp [openLoop, hp, ih]

/-! ### C6: when the ring buffer is sized and allocated -/

/-- C6 counterexample: the claim says a first frame that decodes
successfully but contains zero samples does not trigger the buffer-sizing
transition.  The code checks `frames() == 0` only inside `write`, after
`CpalOutput::new` has already run: processing a single packet whose decode
yields a zero-frame buffer leaves a fully allocated `CpalOutput`, its ring
buffer sized (capacity `17640`) from that empty frame's spec. -/
theorem buffer_allocated_on_empty_first_frame :
    openLoop 1 zeroFrameDecoder goodEnv [⟨1, 0⟩] initState =
      .ok ⟨some ⟨⟨44100, 2⟩, 17640, [], []⟩, []⟩ := by
  rfl

/-- C6 amended: the ring buffer is sized and allocated exactly when the
first successfully decoded frame arrives — whether or not it contains
samples: after a prefix with no successful default-track decode no output
buffer exists, and from the first successful frame on, the output exists
with the Audio Stream Descriptor derived from that frame and the ring
capacity computed by `ring_len` from it. -/
theorem buffer_sized_at_first_successful_frame
    (trackId : Nat) (decode : Decoder) (env : HostEnv) (henv : env.good)
    (pre : List Packet) (p : Packet) (post : List Packet) (f : AudioFrame)
    (hpre : ∀ q ∈ pre, q.trackId = trackId → ∃ e, decode q = .error e)
    (hp : p.trackId = trackId) (hf : decode p = .ok f) :
    (∃ w, openLoop trackId decode env pre initState = .ok ⟨none, w⟩) ∧
    (∃ st, openLoop trackId decode env (pre ++ p :: post) initState = .ok st ∧
      ∃ o, st.cpalOutput = some o ∧
        o.spec = f.spec ∧
        o.ringCap = ring_len f.spec.rate f.spec.channels) := by
  have hinit : initState = (⟨none, []⟩ : OpenState) := rfl
  have hpre' := openLoop_none_no_success trackId decode env pre [] hpre
  have hnew := CpalOutput_new_good env henv f.spec f.capacity
  constructor
  · exact ⟨_, by rw [hinit, hpre']⟩
  · have hsome := openLoop_some trackId decode env post
      (CpalOutput.write ⟨f.spec, ring_len f.spec.rate f.spec.channels, [], []⟩ f)
      ([] ++ decodeWarnings trackId decode pre)
    refine ⟨⟨some (writeAll
        (CpalOutput.write ⟨f.spec, ring_len f.spec.rate f.spec.channels, [], []⟩ f)
        (successes trackId decode post)),
        ([] ++ decodeWarnings trackId decode pre) ++
          decodeWarnings trackId decode post⟩, ?_, ?_⟩
    · rw [openLoop_append, hinit, hpre']
      simp only [openLoop, hf, hnew, if_neg (not_not_intro hp)]
      exact hsome
    · refine ⟨_, rfl, ?_, ?_⟩
      · rw [writeAll_spec, write_spec]
      · rw [writeAll_ringCap, write_ringCap]

/-- Witness for the amended C6: one failing unit, then the first
successful frame, then one foreign packet. -/
theorem buffer_sized_at_first_successful_frame_witness :
    (∃ w, openLoop 1 failOn3 goodEnv [⟨1, 3⟩] initState = .ok ⟨none, w⟩) ∧
    (∃ st, openLoop 1 failOn3 goodEnv ([⟨1, 3⟩] ++ ⟨1, 1⟩ :: [⟨2, 7⟩]) initState = .ok st ∧
      ∃ o, st.cpalOutput = some o ∧
        o.spec = (⟨44100, 2⟩ : SignalSpec) ∧
        o.ringCap = ring_len (44100 : Nat) 2) :=
  buffer_sized_at_first_successful_frame 1 failOn3 goodEnv (by decide)
    [⟨1, 3⟩] ⟨1, 1⟩ [⟨2, 7⟩]
    ⟨⟨44100, 2⟩, 1152, 1, [(1 : Sample), (1 : Sample)]⟩
    (by intro q hq hqt; simp only [List.mem_singleton] at hq; subst hq;
        exact ⟨"malformed unit", rfl⟩)
    rfl rfl

/-! ### C7: device failure handling -/

/-- C7 counterexample: the claim says absence of an output device is
surfaced to the caller as a typed error result of `open` rather than
aborting.  The code instead calls
`host.default_output_device().expect(...)`: with no device, `open` on a
stream whose first packet decodes successfully evaluates to a panic — a
process abort, not a returned error value. -/
theorem open_no_device_panics_cex :
    openSource 1 okDecoder noDeviceEnv [⟨1, 0⟩] =
      .error (.panic "ERR: Failed to get default output device.") := by
  rfl

/-- C7 amended: device configuration failure (no default output device)
is fatal with no retry, but it is surfaced as a panic that aborts `open`
— the `expect` message "ERR: Failed to get default output device." — and
not as a typed error result: whenever the environment has no device and
some default-track packet decodes successfully, `open` panics there. -/
theorem no_device_open_panics
    (trackId : Nat) (decode : Decoder) (env : HostEnv) (ps : List Packet)
    (hdev : env.defaultDevice = none)
    (hsucc : ∃ p ∈ ps, p.trackId = trackId ∧ (decode p).toOption.isSome = true) :
    openSource trackId decode env ps =
      .error (.panic "ERR: Failed to get default output device.") := by
  have hloop : ∀ (qs : List Packet),
      (∃ p ∈ qs, p.trackId = trackId ∧ (decode p).toOption.isSome = true) →
      ∀ (w : List String), openLoop trackId decode env qs ⟨none, w⟩ =
        .error (.panic "ERR: Failed to get default output device.") := by
    intro qs
    induction qs with
    | nil => intro h; simp at h
    | cons q qs ih =>
      intro h w
      by_cases hq : q.trackId = trackId
      · cases hd : decode q with
        | error e =>
          have h' : ∃ p ∈ qs, p.trackId = trackId ∧ (decode p).toOption.isSome = true := by
            obtain ⟨p, hp, h1, h2⟩ := h
            rcases List.mem_cons.mp hp with rfl | hp'
            · rw [hd] at h2; simp [Except.toOption] at h2
            · exact ⟨p, hp', h1, h2⟩
          simp [openLoop, hq, hd, ih h']
        | ok f =>
          have hnew : CpalOutput.new env f.spec f.capacity =
              .error (.panic "ERR: Failed to get default output device.") := by
            unfold CpalOutput.new CpalOutput.get_config
            rw [hdev]
          simp [openLoop, hq, hd, hnew]
      · have h' : ∃ p ∈ qs, p.trackId = trackId ∧ (decode p).toOption.isSome = true := by
          obtain ⟨p, hp, h1, h2⟩ := h
          rcases List.mem_cons.mp hp with rfl | hp'
          · exact absurd h1 hq
          · exact ⟨p, hp', h1, h2⟩
        simp [openLoop, hq, ih h']
  unfold openSource
  rw [show initState = (⟨none, []⟩ : OpenState) from rfl, hloop ps hsucc []]

/-- Witness for the amended C7 at a concrete deviceless environment. -/
theorem no_device_open_panics_witness :
    openSource 2 okDecoder noDeviceEnv [⟨3, 0⟩, ⟨2, 1⟩] =
      .error (.panic "ERR: Failed to get default output device.") :=
  no_device_open_panics 2 okDecoder noDeviceEnv [⟨3, 0⟩, ⟨2, 1⟩] rfl (by decide)

end CpalAndroidTest
